import Mathlib

/-!
Verification development for the legal-document portal
(React/TypeScript frontend, MongoDB init scripts, API documentation).
Text-processing functions are embedded over `List Char`; the optional
backend behaviours that are described only by the documentation are
modelled from the specification and marked as such in their doc comments.
-/

/-! ## Generic character-list helpers -/

/-- Lowercase every character of a character list
(the embedding of JavaScript `toLowerCase()` over the code points we use). -/
def toLowerList (l : List Char) : List Char :=
  l.map Char.toLower

/-- Embedding of JavaScript `String.prototype.includes`:
`needle` occurs contiguously inside `haystack`. -/
def includesB (needle : List Char) : List Char → Bool
  | [] => List.isPrefixOf needle []
  | c :: rest => List.isPrefixOf needle (c :: rest) || includesB needle rest

/-! ## `truncateText` from src/frontend (helpers, part_000 lines 22-25)

```ts
if (text.length <= maxLength) return text;
return text.slice(0, maxLength) + '...';
``` -/

def truncateText (text : List Char) (maxLength : Nat) : List Char :=
  if text.length ≤ maxLength then text
  else text.take maxLength ++ ['.', '.', '.']

/-! ## `highlightText` from src/frontend (helpers, part_000 lines 27-32)

```ts
if (!query.trim()) return text;
const regex = new RegExp((query-with-all-regex-metacharacters-escaped), 'gi');
return text.replace(regex, '<mark>$1</mark>');
```

The escape replaces every regex metacharacter of the query, so the regex
matches the query literally; the `g` flag makes `replace` perform a single
left-to-right non-overlapping scan and the `i` flag makes each comparison
case-insensitive.  The scan is embedded as a segment list: a `plain`
segment is one untouched character, a `marked` segment is one match that
`replace` wraps in mark tags. -/

/-- Case-insensitive character comparison (the `i` regex flag). -/
def ciChar (a b : Char) : Bool :=
  a.toLower == b.toLower

/-- Case-insensitive prefix test: `q` matches at the head of `t`. -/
def ciStarts : List Char → List Char → Bool
  | [], _ => true
  | _ :: _, [] => false
  | a :: q, b :: t => ciChar a b && ciStarts q t

/-- One output segment of the highlight scan. -/
inductive Seg where
  | plain (c : Char)
  | marked (m : List Char)
deriving DecidableEq

/-- The left-to-right scan of `text.replace(regex, ...)` with a global
case-insensitive literal regex for `q`.  `skip` counts characters still
owned by the previous match (a match consumes `q.length` characters). -/
def hlAux (q : List Char) : List Char → Nat → List Seg
  | [], _ => []
  | _ :: rest, skip + 1 => hlAux q rest skip
  | c :: rest, 0 =>
    if ciStarts q (c :: rest) then
      Seg.marked ((c :: rest).take q.length) :: hlAux q rest (q.length - 1)
    else
      Seg.plain c :: hlAux q rest 0

/-- The segments produced by highlighting `text` with query `q`. -/
def highlightSegs (q text : List Char) : List Seg :=
  hlAux q text 0

/-- Rendering a segment back to characters: a match is wrapped in mark tags. -/
def renderSeg : Seg → List Char
  | Seg.plain c => [c]
  | Seg.marked m => ("<mark>").data ++ m ++ ("</mark>").data

/-- `highlightText` itself: a query that trims to the empty string returns
the text unchanged; otherwise the scan runs and each match is wrapped. -/
def highlightText (text query : List Char) : List Char :=
  if query.all Char.isWhitespace then text
  else ((highlightSegs query text).map renderSeg).flatten

/-- Stripping a segment: drop the inserted mark tags, keep the content. -/
def stripSeg : Seg → List Char
  | Seg.plain c => [c]
  | Seg.marked m => m

/-- Stripping all inserted mark tags from a segment list. -/
def stripMarks (segs : List Seg) : List Char :=
  (segs.map stripSeg).flatten

/-- Per-character view of the highlight output: `true` marks characters
that lie inside a `<mark>` region. -/
def segFlags : Seg → List (Bool × Char)
  | Seg.plain c => [(false, c)]
  | Seg.marked m => m.map (fun ch => (true, ch))

/-- Flags of the whole highlight run on `text` with query `q`. -/
def highlightFlags (q text : List Char) : List (Bool × Char) :=
  ((highlightSegs q text).map segFlags).flatten

/-- `q` has a case-insensitive occurrence in `t` starting at index `i`. -/
def occursAtCI (q t : List Char) (i : Nat) : Bool :=
  decide (i + q.length ≤ t.length) && ciStarts q (t.drop i)

/-! ## `validateFile` from src/frontend (helpers, part_000 lines 60-77)

```ts
const maxSize = 10 * 1024 * 1024;
const allowedTypes = ['.pdf', '.doc', '.docx', '.txt'];
if (file.size > maxSize) return { valid: false, error: (size message) };
const fileExtension = '.' + file.name.split('.').pop()?.toLowerCase();
if (!allowedTypes.includes(fileExtension)) return { valid: false, error: (type message) };
return { valid: true };
``` -/

/-- The two fields of a `File` that `validateFile` reads. -/
structure FileInfo where
  name : String
  size : Nat
deriving DecidableEq

/-- The result shape of `validateFile`. -/
structure ValidationResult where
  valid : Bool
  error : Option String
deriving DecidableEq

/-- `maxSize` constant of `validateFile`. -/
def maxSizeBytes : Nat := 10 * 1024 * 1024

/-- `allowedTypes` constant of `validateFile`. -/
def allowedTypes : List String := [".pdf", ".doc", ".docx", ".txt"]

/-- Error message for an oversized file. -/
def sizeErrorMsg : String := "File quá lớn. Kích thước tối đa là 10MB."

/-- Error message for an unsupported extension. -/
def typeErrorMsg : String := "Định dạng file không được hỗ trợ. Chỉ chấp nhận: PDF, DOC, DOCX, TXT."

/-- Embedding of JavaScript `name.split('.')`: split at every dot,
keeping empty pieces (so a dotless name yields the whole name as its
only piece, and `pop()` returns it). -/
def splitOnDot : List Char → List (List Char)
  | [] => [[]]
  | c :: rest =>
    if c = '.' then [] :: splitOnDot rest
    else
      match splitOnDot rest with
      | s :: ss => (c :: s) :: ss
      | [] => [[c]]

/-- `'.' + file.name.split('.').pop()?.toLowerCase()` of `validateFile`. -/
def fileExt (name : String) : String :=
  String.mk ('.' :: toLowerList ((splitOnDot name.data).getLastD []))

/-- `validateFile` itself. -/
def validateFile (file : FileInfo) : ValidationResult :=
  if file.size > maxSizeBytes then
    { valid := false, error := some sizeErrorMsg }
  else if (allowedTypes.contains (fileExt file.name)) = false then
    { valid := false, error := some typeErrorMsg }
  else
    { valid := true, error := none }

/-- Follows the claim's wording, not the source: a file is valid when its
size is within bound and "the part after the last dot of the name",
lowercased and prefixed with a dot, is an allowed extension — so a name
without any dot has no such part and is never valid under this reading. -/
def claimValidB (file : FileInfo) : Bool :=
  decide (file.size ≤ maxSizeBytes) &&
    file.name.data.contains '.' &&
    allowedTypes.contains (fileExt file.name)

/-! ## Data model from src/frontend/src/types/api.ts -/

/-- The `Document` interface (types/api.ts lines 1-14).  `metadata` is a
`Record<string, any>`; its values are modelled as strings. -/
structure Document where
  id : String
  title : String
  content : String
  summary : Option String
  category : String
  tags : List String
  date_created : String
  date_updated : Option String
  file_path : Option String
  file_size : Option Nat
  file_type : Option String
  metadata : Option (List (String × String))
deriving DecidableEq

/-- The `SearchRequest` interface (types/api.ts lines 34-40). -/
structure SearchRequest where
  query : String
  category : Option String
  tags : Option (List String)
  limit : Option Nat
  offset : Option Nat
deriving DecidableEq

/-- The `SearchResult` interface (types/api.ts lines 42-46); the float
`score` is modelled as a rational. -/
structure SearchResult where
  document : Document
  score : Rat
  highlights : Option (List String)
deriving DecidableEq

/-- The `SearchResponse` interface (types/api.ts lines 48-53). -/
structure SearchResponse where
  results : List SearchResult
  total_count : Nat
  query : String
  execution_time : Rat
deriving DecidableEq

/-- The field names declared by `interface SearchResponse`. -/
def searchResponseFields : List String :=
  ["results", "total_count", "query", "execution_time"]

/-- The field names declared by `interface SearchResult`. -/
def searchResultFields : List String :=
  ["document", "score", "highlights"]

/-! ## `documentApi.getDocuments` from src/frontend/src/services/api.ts (lines 50-63)

```ts
const params = new URLSearchParams();
params.append('skip', skip.toString());
params.append('limit', limit.toString());
if (category) params.append('category', category);
const response = await api.get(`/documents?` + params);
return response.data.map((doc: any) => ({ ...doc, id: doc._id }));
``` -/

/-- A raw backend record as returned by `GET /api/documents`: it carries a
Mongo `_id`, and whatever `id` field the payload may or may not already
have before the frontend rewrites it. -/
structure RawDoc where
  _id : String
  id : Option String
  title : String
  content : String
  summary : Option String
  category : String
  tags : List String
  date_created : String
  date_updated : Option String
  file_path : Option String
  file_size : Option Nat
  file_type : Option String
  metadata : Option (List (String × String))
deriving DecidableEq

/-- The spread `(doc) => ({ ...doc, id: doc._id })`: every payload field is
kept and `id` is overwritten with `_id`. -/
def mapRawDoc (doc : RawDoc) : Document :=
  { id := doc._id
    title := doc.title
    content := doc.content
    summary := doc.summary
    category := doc.category
    tags := doc.tags
    date_created := doc.date_created
    date_updated := doc.date_updated
    file_path := doc.file_path
    file_size := doc.file_size
    file_type := doc.file_type
    metadata := doc.metadata }

/-- The query parameters `getDocuments` builds (`category` is appended
only when present and non-empty, since an empty string is falsy). -/
def getDocumentsParams (skip limit : Nat) (category : Option String) : List (String × String) :=
  [("skip", toString skip), ("limit", toString limit)] ++
    (match category with
     | some c => if c = ("") then [] else [("category", c)]
     | none => [])

/-- `documentApi.getDocuments`: given the array the backend answered with,
return it with `_id` copied into `id` on every element. -/
def getDocuments (skip limit : Nat) (category : Option String)
    (responseData : List RawDoc) : List Document :=
  responseData.map mapRawDoc

/-! ## `DocumentPage` from src/unnamed/part_001 (lines 406-455)

```ts
const limit = 12;
queryFn: () => documentApi.getDocuments((page - 1) * limit, limit, category || undefined)
const filteredDocuments = documents.filter(doc =>
  doc.title.toLowerCase().includes(searchTerm.toLowerCase()) ||
  doc.content.toLowerCase().includes(searchTerm.toLowerCase()));
const totalPages = Math.ceil(filteredDocuments.length / limit);
``` -/

/-- `limit` of `DocumentPage`. -/
def documentPageLimit : Nat := 12

/-- The `filteredDocuments` predicate of `DocumentPage`. -/
def matchesSearchTerm (searchTerm : String) (doc : Document) : Bool :=
  includesB (toLowerList searchTerm.data) (toLowerList doc.title.data) ||
    includesB (toLowerList searchTerm.data) (toLowerList doc.content.data)

/-- Modelled from the spec: the backend handler of `GET /api/documents` is
not under src/ (only its frontend caller and its API documentation are).
Per the documentation it returns the document collection filtered by the
optional `category`, windowed by `skip` and `limit`. -/
def serverGetDocuments (corpus : List Document) (skip limit : Nat)
    (category : Option String) : List Document :=
  (((match category with
     | none => corpus
     | some c => corpus.filter (fun d => d.category == c))).drop skip).take limit

/-- The full filtered (pre-pagination) candidate set of a listing request:
every document of the corpus that passes the category filter and the
search-term filter. -/
def fullFilteredCorpus (corpus : List Document) (category : Option String)
    (searchTerm : String) : List Document :=
  (match category with
   | none => corpus
   | some c => corpus.filter (fun d => d.category == c)).filter (matchesSearchTerm searchTerm)

/-- The `documents` array `DocumentPage` holds after fetching page `page`. -/
def documentPageDocuments (corpus : List Document) (page : Nat)
    (category : Option String) : List Document :=
  serverGetDocuments corpus ((page - 1) * documentPageLimit) documentPageLimit category

/-- `filteredDocuments` of `DocumentPage`: the fetched page filtered by
the search term. -/
def filteredDocuments (corpus : List Document) (page : Nat)
    (category : Option String) (searchTerm : String) : List Document :=
  (documentPageDocuments corpus page category).filter (matchesSearchTerm searchTerm)

/-- The count `DocumentPage` reports to the user
(rendered as `(filteredDocuments.length) tài liệu`). -/
def documentPageShownCount (corpus : List Document) (page : Nat)
    (category : Option String) (searchTerm : String) : Nat :=
  (filteredDocuments corpus page category searchTerm).length

/-- `totalPages = Math.ceil(filteredDocuments.length / limit)` of `DocumentPage`. -/
def documentPageTotalPages (corpus : List Document) (page : Nat)
    (category : Option String) (searchTerm : String) : Nat :=
  (documentPageShownCount corpus page category searchTerm + documentPageLimit - 1) /
    documentPageLimit

/-- A corpus of 13 pairwise distinct documents, all in one category and all
matching the empty search term. -/
def mkDemoDoc (i : Nat) : Document :=
  { id := toString i
    title := "Luật số " ++ toString i
    content := "nội dung"
    summary := none
    category := "Luật Thuế"
    tags := []
    date_created := "2024-01-01"
    date_updated := none
    file_path := none
    file_size := none
    file_type := none
    metadata := none }

/-- Thirteen demo documents: one more than one `DocumentPage` page. -/
def corpus13 : List Document := (List.range 13).map mkDemoDoc

/-! ## `SearchPage` from src/frontend/src/pages/HomePage.tsx (lines 210-259)

```ts
const limit = 10;
const request: SearchRequest = {
  query: searchQuery, category: category || undefined,
  limit, offset: (page - 1) * limit };
const totalPages = searchResults ? Math.ceil(searchResults.total_count / limit) : 0;
``` -/

/-- `limit` of `SearchPage`. -/
def searchPageLimit : Nat := 10

/-- The request `handleSearch` builds for page `page`. -/
def buildSearchRequest (searchQuery : String) (category : Option String)
    (page : Nat) : SearchRequest :=
  { query := searchQuery
    category := category
    tags := none
    limit := some searchPageLimit
    offset := some ((page - 1) * searchPageLimit) }

/-- `totalPages` of `SearchPage`, from the server-reported `total_count`. -/
def searchPageTotalPages (totalCount : Nat) : Nat :=
  (totalCount + searchPageLimit - 1) / searchPageLimit

/-- Modelled from the spec: the `POST /api/search` backend handler is not
under src/ (only its frontend caller and its API documentation are).  Per
the specification the facet/pagination layer slices the full ranked
result list with the request's offset and limit. -/
def serverSearchSlice (ranked : List SearchResult) (offset limit : Nat) : List SearchResult :=
  (ranked.drop offset).take limit

/-- The result items returned for page `page` of a fixed query: the
spec-modelled backend slice at the offset and limit of the request that
`handleSearch` builds. -/
def pageResults (ranked : List SearchResult) (searchQuery : String)
    (category : Option String) (page : Nat) : List SearchResult :=
  serverSearchSlice ranked
    ((buildSearchRequest searchQuery category page).offset.getD 0)
    ((buildSearchRequest searchQuery category page).limit.getD 10)

/-- A concrete ranked result list of three items, for witnesses. -/
def demoRanked : List SearchResult :=
  (List.range 3).map (fun i =>
    { document := mkDemoDoc i, score := 1 - i, highlights := none })

/-! ## The text index from src/scripts/init-mongo.js (line 8)

```js
db.documents.createIndex(keys-title-content-summary-all-text);
```

The call passes no `weights` option, so MongoDB assigns every indexed
field the default text-index weight 1, and only `title`, `content` and
`summary` participate in text search. -/

/-- One field of a MongoDB text index together with its weight. -/
structure TextIndexField where
  path : String
  weight : Nat
deriving DecidableEq

/-- The text index actually created by src/scripts/init-mongo.js. -/
def initMongoTextIndexFields : List TextIndexField :=
  [⟨"title", 1⟩, ⟨"content", 1⟩, ⟨"summary", 1⟩]

/-- The weighted configuration the repository's own documentation
describes (embedded documentation in src/frontend/src/services/api.ts,
section 9.2): weights title 10, summary 5, metadata.subject 3, content 1. -/
def documentedTextIndexWeights : List TextIndexField :=
  [⟨"title", 10⟩, ⟨"summary", 5⟩, ⟨"metadata.subject", 3⟩, ⟨"content", 1⟩]

/-- The weight an index assigns to a field path (none: not indexed). -/
def textIndexWeight (fields : List TextIndexField) (path : String) : Option Nat :=
  (fields.find? (fun f => f.path == path)).map (fun f => f.weight)

/-! ## Query parser

Modelled from the spec: the Query Parser of the Document Query Engine is
not under src/ — only its declarations are (the six `search_type` values
of `POST /api/search/text` in the API documentation of
src/scripts/init-mongo.js line 150, and the spec grammar of section 4.1).
The definitions below follow those declared grammars. -/

/-- The six declared search modes. -/
inductive SearchMode where
  | full_text
  | boolean
  | phrase
  | proximity
  | wildcard
  | fuzzy
deriving DecidableEq

/-- The typed parse errors of section 4.1. -/
inductive ParseError where
  | Syntax (msg : String)
  | InvalidArgument (msg : String)
deriving DecidableEq

/-- The query AST node kinds of section 3 that the parser can emit. -/
inductive QueryAST where
  | Term (t : String)
  | Phrase (terms : List String)
  | Proximity (t1 t2 : String) (maxDist : Nat)
  | Wildcard (pattern : String)
  | Fuzzy (t : String) (maxEdits : Nat)
  | And (l r : QueryAST)
  | Or (l r : QueryAST)
  | Not (c : QueryAST)
deriving DecidableEq

/-- Number of leaf nodes of an AST (an AST with no leaves would be the
"silent empty AST" the spec forbids; the type cannot express one). -/
def leafCount : QueryAST → Nat
  | QueryAST.Term _ => 1
  | QueryAST.Phrase _ => 1
  | QueryAST.Proximity _ _ _ => 1
  | QueryAST.Wildcard _ => 1
  | QueryAST.Fuzzy _ _ => 1
  | QueryAST.And l r => leafCount l + leafCount r
  | QueryAST.Or l r => leafCount l + leafCount r
  | QueryAST.Not c => leafCount c

/-- Tokens of the boolean grammar. -/
inductive Tok where
  | lparen
  | rparen
  | word (w : String)
deriving DecidableEq

/-- Tokenizer: whitespace separates words, parentheses are single tokens. -/
def tokenizeAux : List Char → List Char → List Tok
  | [], acc => if acc.isEmpty then [] else [Tok.word (String.mk acc.reverse)]
  | c :: rest, acc =>
    if c = '(' then
      (if acc.isEmpty then [] else [Tok.word (String.mk acc.reverse)]) ++
        Tok.lparen :: tokenizeAux rest []
    else if c = ')' then
      (if acc.isEmpty then [] else [Tok.word (String.mk acc.reverse)]) ++
        Tok.rparen :: tokenizeAux rest []
    else if c.isWhitespace then
      (if acc.isEmpty then [] else [Tok.word (String.mk acc.reverse)]) ++
        tokenizeAux rest []
    else
      tokenizeAux rest (c :: acc)

/-- Tokenize a raw query string. -/
def tokenize (s : String) : List Tok :=
  tokenizeAux s.data []

/-- Word splitter for the non-boolean modes: whitespace and double quotes
separate words. -/
def wordsAux : List Char → List Char → List String
  | [], acc => if acc.isEmpty then [] else [String.mk acc.reverse]
  | c :: rest, acc =>
    if c.isWhitespace || c = '"' then
      (if acc.isEmpty then [] else [String.mk acc.reverse]) ++ wordsAux rest []
    else
      wordsAux rest (c :: acc)

/-- The words of a raw query string. -/
def wordsOf (s : String) : List String :=
  wordsAux s.data []

/-- Case-insensitive keyword test. -/
def isKw (w kw : String) : Bool :=
  w.data.map Char.toUpper == kw.data

/-- Is this word one of the boolean keywords? -/
def isKeyword (w : String) : Bool :=
  isKw w ("AND") || isKw w ("OR") || isKw w ("NOT")

/-- Decimal digits to a number; `none` on any non-digit or on the empty list. -/
def digitsValAux : List Char → Nat → Option Nat
  | [], acc => some acc
  | c :: rest, acc =>
    if c.isDigit then digitsValAux rest (acc * 10 + (c.toNat - 48)) else none

/-- Parse a non-empty all-digit character list. -/
def parseNatDigits : List Char → Option Nat
  | [] => none
  | c :: rest => digitsValAux (c :: rest) 0

/-- Message for an empty query. -/
def emptyQueryMsg : String := "empty query"

/-- Message for a non-positive proximity distance. -/
def nearPositiveMsg : String := "NEAR distance must be a positive integer"

/-- Message for a malformed proximity operator. -/
def nearSyntaxMsg : String := "expected: term1 NEAR/n term2"

/-- Message for a malformed fuzzy edit-distance. -/
def fuzzyNumberMsg : String := "fuzzy edit distance must be an integer"

/-- Message for a wildcard query that is not a single token. -/
def wildcardSyntaxMsg : String := "wildcard query must be a single token"

/-! Recursive-descent boolean parser, precedence NOT > AND > OR, with a
fuel argument for structural termination (the fuel supplied by
`parseBooleanToks` always suffices for the token count). -/

mutual
def parseOrLvl : Nat → List Tok → Except ParseError (QueryAST × List Tok)
  | 0, _ => Except.error (ParseError.Syntax ("query too complex"))
  | fuel + 1, ts => do
    let (left, rest) ← parseAndLvl fuel ts
    parseOrRest fuel left rest
def parseOrRest : Nat → QueryAST → List Tok → Except ParseError (QueryAST × List Tok)
  | 0, _, _ => Except.error (ParseError.Syntax ("query too complex"))
  | fuel + 1, left, Tok.word w :: rest =>
    if isKw w ("OR") then do
      let (right, rest2) ← parseAndLvl fuel rest
      parseOrRest fuel (QueryAST.Or left right) rest2
    else Except.ok (left, Tok.word w :: rest)
  | _ + 1, left, ts => Except.ok (left, ts)
def parseAndLvl : Nat → List Tok → Except ParseError (QueryAST × List Tok)
  | 0, _ => Except.error (ParseError.Syntax ("query too complex"))
  | fuel + 1, ts => do
    let (left, rest) ← parseNotLvl fuel ts
    parseAndRest fuel left rest
def parseAndRest : Nat → QueryAST → List Tok → Except ParseError (QueryAST × List Tok)
  | 0, _, _ => Except.error (ParseError.Syntax ("query too complex"))
  | fuel + 1, left, Tok.word w :: rest =>
    if isKw w ("AND") then do
      let (right, rest2) ← parseNotLvl fuel rest
      parseAndRest fuel (QueryAST.And left right) rest2
    else Except.ok (left, Tok.word w :: rest)
  | _ + 1, left, ts => Except.ok (left, ts)
def parseNotLvl : Nat → List Tok → Except ParseError (QueryAST × List Tok)
  | 0, _ => Except.error (ParseError.Syntax ("query too complex"))
  | fuel + 1, Tok.word w :: rest =>
    if isKw w ("NOT") then do
      let (child, rest2) ← parseNotLvl fuel rest
      Except.ok (QueryAST.Not child, rest2)
    else parseAtomLvl fuel (Tok.word w :: rest)
  | fuel + 1, ts => parseAtomLvl fuel ts
def parseAtomLvl : Nat → List Tok → Except ParseError (QueryAST × List Tok)
  | 0, _ => Except.error (ParseError.Syntax ("query too complex"))
  | _ + 1, Tok.word w :: rest =>
    if isKeyword w then Except.error (ParseError.Syntax ("dangling operator " ++ w))
    else Except.ok (QueryAST.Term w, rest)
  | fuel + 1, Tok.lparen :: rest => do
    let (inner, rest2) ← parseOrLvl fuel rest
    match rest2 with
    | Tok.rparen :: rest3 => Except.ok (inner, rest3)
    | _ => Except.error (ParseError.Syntax ("unmatched parenthesis"))
  | _ + 1, Tok.rparen :: _ => Except.error (ParseError.Syntax ("unmatched parenthesis"))
  | _ + 1, [] => Except.error (ParseError.Syntax ("unexpected end of query"))
end

/-- Boolean mode: parse the token list, requiring it to be consumed fully. -/
def parseBooleanToks (ts : List Tok) : Except ParseError QueryAST :=
  match ts with
  | [] => Except.error (ParseError.Syntax emptyQueryMsg)
  | _ => do
    let (ast, rest) ← parseOrLvl (2 * ts.length + 2) ts
    match rest with
    | [] => Except.ok ast
    | _ => Except.error (ParseError.Syntax ("unexpected trailing tokens"))

/-- Full-text mode: free-text tokens implicitly OR-combined. -/
def parseFullText (ws : List String) : Except ParseError QueryAST :=
  match ws with
  | [] => Except.error (ParseError.Syntax emptyQueryMsg)
  | w :: rest => Except.ok (rest.foldl (fun acc t => QueryAST.Or acc (QueryAST.Term t)) (QueryAST.Term w))

/-- Phrase mode: the (quoted) word sequence becomes an ordered Phrase node. -/
def parsePhrase (ws : List String) : Except ParseError QueryAST :=
  match ws with
  | [] => Except.error (ParseError.Syntax emptyQueryMsg)
  | _ => Except.ok (QueryAST.Phrase ws)

/-- Proximity mode: `term1 NEAR/n term2`, `n` a positive integer. -/
def parseProximity (ws : List String) : Except ParseError QueryAST :=
  match ws with
  | [t1, nearTok, t2] =>
    if (nearTok.data.take 5).map Char.toUpper = ("NEAR/").data then
      match parseNatDigits (nearTok.data.drop 5) with
      | some n =>
        if n ≥ 1 then Except.ok (QueryAST.Proximity t1 t2 n)
        else Except.error (ParseError.InvalidArgument nearPositiveMsg)
      | none => Except.error (ParseError.InvalidArgument nearPositiveMsg)
    else Except.error (ParseError.Syntax nearSyntaxMsg)
  | [] => Except.error (ParseError.Syntax emptyQueryMsg)
  | _ => Except.error (ParseError.Syntax nearSyntaxMsg)

/-- Wildcard mode: a single glob token. -/
def parseWildcard (ws : List String) : Except ParseError QueryAST :=
  match ws with
  | [t] => Except.ok (QueryAST.Wildcard t)
  | [] => Except.error (ParseError.Syntax emptyQueryMsg)
  | _ => Except.error (ParseError.Syntax wildcardSyntaxMsg)

/-- Fuzzy mode: `term~k`, default edit-distance 2, clamped to [0, 2]. -/
def parseFuzzy (ws : List String) : Except ParseError QueryAST :=
  match ws with
  | [t] =>
    match t.data.splitOn '~' with
    | [w] => Except.ok (QueryAST.Fuzzy (String.mk w) 2)
    | [w, ks] =>
      if w.isEmpty then Except.error (ParseError.Syntax emptyQueryMsg)
      else
        match parseNatDigits ks with
        | some k => Except.ok (QueryAST.Fuzzy (String.mk w) (min k 2))
        | none => Except.error (ParseError.InvalidArgument fuzzyNumberMsg)
    | _ => Except.error (ParseError.Syntax ("too many tildes"))
  | [] => Except.error (ParseError.Syntax emptyQueryMsg)
  | _ => Except.error (ParseError.Syntax ("fuzzy query must be a single token"))

/-- `parse(raw_query, mode)` of section 4.1. -/
def parse (raw : String) (mode : SearchMode) : Except ParseError QueryAST :=
  match mode with
  | SearchMode.full_text => parseFullText (wordsOf raw)
  | SearchMode.boolean => parseBooleanToks (tokenize raw)
  | SearchMode.phrase => parsePhrase (wordsOf raw)
  | SearchMode.proximity => parseProximity (wordsOf raw)
  | SearchMode.wildcard => parseWildcard (wordsOf raw)
  | SearchMode.fuzzy => parseFuzzy (wordsOf raw)

/-- Is a parse outcome an error? -/
def isErr : Except ParseError QueryAST → Bool
  | Except.error _ => true
  | Except.ok _ => false

/-! ## Duplicate detector

Modelled from the spec: `check_and_register` of the Duplicate Detector
(section 4.5) is not under src/ — only the documentation of the
`processing_info.content_hash` field and of the duplicate endpoints is.
The normalized-content hash is deterministic over whitespace/case
normalized content; the hash function itself is modelled as the
normalized content (deterministic and collision-free). -/

/-- Split a character list at whitespace, dropping empty runs. -/
def wsSplitAux : List Char → List Char → List (List Char)
  | [], acc => if acc.isEmpty then [] else [acc.reverse]
  | c :: rest, acc =>
    if c.isWhitespace then
      (if acc.isEmpty then [] else [acc.reverse]) ++ wsSplitAux rest []
    else
      wsSplitAux rest (c :: acc)

/-- Join character-list words with single spaces. -/
def joinWords : List (List Char) → List Char
  | [] => []
  | [w] => w
  | w :: rest => w ++ ' ' :: joinWords rest

/-- Whitespace/case normalization of document content. -/
def normalizeContent (content : String) : String :=
  String.mk (joinWords (wsSplitAux (toLowerList content.data) []))

/-- The three duplicate outcomes of section 4.5. -/
inductive DuplicateOutcome where
  | New
  | ExactDuplicate (existing_id : String)
  | NearDuplicate (existing_id : String) (similarity : Rat)
deriving DecidableEq

/-- The fingerprint index: fingerprint to the first registering document id. -/
structure FingerprintIndex where
  entries : List (String × String)
deriving DecidableEq

/-- Look a fingerprint up in the index. -/
def lookupFingerprint (idx : FingerprintIndex) (fp : String) : Option String :=
  (idx.entries.find? (fun e => e.1 == fp)).map (fun e => e.2)

/-- `check_and_register`: compute the normalized-content fingerprint; an
exact collision yields `ExactDuplicate` with the registered id, otherwise
the outcome is `New` and the fingerprint is registered to `docId`. -/
def check_and_register (idx : FingerprintIndex) (content docId : String) :
    DuplicateOutcome × FingerprintIndex :=
  let fp := normalizeContent content
  match lookupFingerprint idx fp with
  | some existing => (DuplicateOutcome.ExactDuplicate existing, idx)
  | none => (DuplicateOutcome.New, ⟨idx.entries ++ [(fp, docId)]⟩)

/-! ## Helper lemmas -/

/-- Concatenating the offset/limit windows of pages `0..N-1` recovers the
first `N * lim` elements of the list. -/
theorem chunks_flatten {α : Type} (lim : Nat) (l : List α) (N : Nat) :
    ((List.range N).map (fun k => (l.drop (k * lim)).take lim)).flatten =
      l.take (N * lim) := by
  induction N with
  | zero => simp
  | succ n ih =>
    rw [List.range_succ, List.map_append, List.flatten_append]
    rw [ih]
    simp only [List.map_cons, List.map_nil, List.flatten_cons, List.flatten_nil,
      List.append_nil]
    rw [← List.take_add]
    rw [Nat.succ_mul]

/-- `find?` over an appended singleton when the prefix has no hit. -/
theorem find?_append_single {α : Type} (p : α → Bool) (l : List α) (x : α)
    (h : l.find? p = none) :
    (l ++ [x]).find? p = if p x then some x else none := by
  induction l with
  | nil => cases hpx : p x <;> simp [List.find?, hpx]
  | cons a t ih =>
    rw [List.cons_append]
    cases hpa : p a with
    | true =>
      rw [List.find?_cons_of_pos _ hpa] at h
      exact absurd h (by simp)
    | false =>
      rw [List.find?_cons_of_neg _ (by simp [hpa])] at h
      rw [List.find?_cons_of_neg _ (by simp [hpa])]
      exact ih h

/-- A case-insensitive prefix is no longer than the text. -/
theorem ciStarts_length_le (q : List Char) :
    ∀ (t : List Char), ciStarts q t = true → q.length ≤ t.length := by
  induction q with
  | nil => intro t _; simp
  | cons a q ih =>
    intro t h
    cases t with
    | nil => simp [ciStarts] at h
    | cons b t =>
      simp only [ciStarts, Bool.and_eq_true] at h
      simpa using ih t h.2

/-- A case-insensitive prefix still matches the matched slice itself. -/
theorem ciStarts_take (q : List Char) :
    ∀ (t : List Char), ciStarts q t = true → ciStarts q (t.take q.length) = true := by
  induction q with
  | nil => intro t _; rfl
  | cons a q ih =>
    intro t h
    cases t with
    | nil => simp [ciStarts] at h
    | cons b t =>
      simp only [ciStarts, Bool.and_eq_true] at h
      simp only [List.length_cons, List.take_succ_cons, ciStarts, Bool.and_eq_true]
      exact ⟨h.1, ih t h.2⟩

/-- Stripping the inserted tags from the scan output restores exactly the
not-yet-skipped part of the text. -/
theorem stripMarks_hlAux (q : List Char) (hq : q ≠ []) :
    ∀ (t : List Char) (skip : Nat), stripMarks (hlAux q t skip) = t.drop skip := by
  intro t
  induction t with
  | nil => intro skip; simp [hlAux, stripMarks]
  | cons c rest ih =>
    intro skip
    cases skip with
    | succ s =>
      simpa [hlAux] using ih s
    | zero =>
      by_cases hci : ciStarts q (c :: rest) = true
      · obtain ⟨a, q', hq'⟩ : ∃ a q', q = a :: q' := by
          cases q with
          | nil => exact absurd rfl hq
          | cons a q' => exact ⟨a, q', rfl⟩
        simp only [hlAux, hci, if_pos, stripMarks, List.map_cons, List.flatten_cons, stripSeg]
        have ihr := ih (q.length - 1)
        simp only [stripMarks] at ihr
        rw [ihr]
        subst hq'
        simp only [List.length_cons, List.take_succ_cons, Nat.add_sub_cancel, List.cons_append,
          List.drop_zero, List.cons.injEq, true_and]
        exact List.take_append_drop _ _
      · simp only [hlAux, hci, if_neg, stripMarks, List.map_cons, List.flatten_cons, stripSeg,
          Bool.not_eq_true, List.drop_zero]
        have ihr := ih 0
        simp only [stripMarks, List.drop_zero] at ihr
        simp [ihr, hci]

/-- Every marked region the scan emits is a case-insensitive match of the
query, of the query's exact length. -/
theorem hlAux_marked (q : List Char) :
    ∀ (t : List Char) (skip : Nat) (m : List Char),
      Seg.marked m ∈ hlAux q t skip → ciStarts q m = true ∧ m.length = q.length := by
  intro t
  induction t with
  | nil => intro skip m hm; simp [hlAux] at hm
  | cons c rest ih =>
    intro skip m hm
    cases skip with
    | succ s => exact ih s m (by simpa [hlAux] using hm)
    | zero =>
      by_cases hci : ciStarts q (c :: rest) = true
      · simp only [hlAux, hci, if_pos, List.mem_cons] at hm
        rcases hm with hm | hm
        · have hmq : m = (c :: rest).take q.length := by
            injection hm
          subst hmq
          refine ⟨ciStarts_take q (c :: rest) hci, ?_⟩
          have hle := ciStarts_length_le q (c :: rest) hci
          simp only [List.length_cons] at hle
          simp [List.length_take]
          omega
        · exact ih _ m hm
      · simp only [hlAux, hci, if_neg, Bool.not_eq_true, List.mem_cons] at hm
        rcases hm with hm | hm
        · exact absurd hm (by simp)
        · exact ih 0 m hm

/-- Shifting an occurrence index across the head of the text. -/
theorem occursAtCI_cons (q : List Char) (c : Char) (rest : List Char) (i : Nat) :
    occursAtCI q (c :: rest) (i + 1) = occursAtCI q rest i := by
  simp only [occursAtCI, List.drop_succ_cons, List.length_cons]
  congr 1
  rw [decide_eq_decide]
  omega

/-- If the query occurs nowhere, every scanned character stays plain. -/
theorem hlAux_no_occ (q : List Char) :
    ∀ (t : List Char), (∀ i, occursAtCI q t i = false) →
      hlAux q t 0 = t.map Seg.plain := by
  intro t
  induction t with
  | nil => intro _; simp [hlAux]
  | cons c rest ih =>
    intro h
    by_cases hci : ciStarts q (c :: rest) = true
    · exfalso
      have hlen := ciStarts_length_le q (c :: rest) hci
      have h0 := h 0
      simp only [occursAtCI, Nat.zero_add, List.drop_zero, hci, Bool.and_true,
        decide_eq_false_iff_not] at h0
      exact h0 hlen
    · simp only [hlAux, hci, if_neg, Bool.not_eq_true, List.map_cons, List.cons.injEq, true_and]
      refine ih (fun i => ?_)
      have := h (i + 1)
      rwa [occursAtCI_cons] at this

/-- Rendering an all-plain segment list recovers the text. -/
theorem flatten_map_plain (t : List Char) :
    ((t.map Seg.plain).map renderSeg).flatten = t := by
  induction t with
  | nil => rfl
  | cons c rest ih =>
    simp only [List.map_cons, List.flatten_cons, renderSeg]
    simpa using ih

/-- An all-whitespace character list splits into no words. -/
theorem wordsAux_ws (l : List Char) (h : l.all Char.isWhitespace = true) :
    wordsAux l [] = [] := by
  induction l with
  | nil => rfl
  | cons c rest ih =>
    simp only [List.all_cons, Bool.and_eq_true] at h
    simp [wordsAux, h.1, ih h.2]

/-- An all-whitespace character list yields no tokens. -/
theorem tokenizeAux_ws (l : List Char) (h : l.all Char.isWhitespace = true) :
    tokenizeAux l [] = [] := by
  induction l with
  | nil => rfl
  | cons c rest ih =>
    simp only [List.all_cons, Bool.and_eq_true] at h
    have hc1 : ¬(c = '(') := by
      intro hc; subst hc; exact absurd h.1 (by decide)
    have hc2 : ¬(c = ')') := by
      intro hc; subst hc; exact absurd h.1 (by decide)
    simp [tokenizeAux, hc1, hc2, h.1, ih h.2]

/-- Every query AST has at least one leaf: the type has no empty tree. -/
theorem leafCount_pos (ast : QueryAST) : 1 ≤ leafCount ast := by
  induction ast <;> simp [leafCount] <;> omega

/-! ## Claim theorems -/

/-- Claim C1 (code bug in `DocumentPage`): the claim says the reported
total count (and the page count `ceil(total/limit)` derived from it) is
computed over the full filtered pre-pagination candidate set.
`DocumentPage` instead filters only the currently fetched page (at most
`limit = 12` documents) and derives both the displayed count and
`totalPages` from it: on a 13-document corpus that fully matches, the
full filtered set has 13 documents (2 pages) but the page reports 12
documents and 1 page — and in general `totalPages` can never exceed 1,
so the pagination control never renders a second page. -/
theorem claim_C1_listing_count :
    (fullFilteredCorpus corpus13 none ("")).length = 13 ∧
    documentPageShownCount corpus13 1 none ("") = 12 ∧
    documentPageTotalPages corpus13 1 none ("") = 1 ∧
    (13 + documentPageLimit - 1) / documentPageLimit = 2 ∧
    (∀ (corpus : List Document) (page : Nat) (category : Option String) (searchTerm : String),
      documentPageTotalPages corpus page category searchTerm ≤ 1) := by
  refine ⟨by decide, by decide, by decide, by decide, ?_⟩
  intro corpus page category searchTerm
  have hlen : documentPageShownCount corpus page category searchTerm ≤ 12 := by
    unfold documentPageShownCount filteredDocuments documentPageDocuments serverGetDocuments
    calc (List.filter (matchesSearchTerm searchTerm) _).length
        ≤ _ := List.length_filter_le _ _
      _ ≤ documentPageLimit := List.length_take_le _ _
  unfold documentPageTotalPages documentPageLimit
  unfold documentPageLimit at hlen
  omega

/-- Claim C2 (code bug in `init-mongo.js`): the claim (and the
repository's own documentation, section 9.2 of the embedded API
documentation) gives the text index per-field weights title 10,
summary 5, metadata.subject 3, content 1 — but the `createIndex` call in
src/scripts/init-mongo.js passes no weights option, so title, content
and summary are all indexed at MongoDB's default weight 1 and
metadata.subject is not text-indexed at all. -/
theorem claim_C2_text_index_weights :
    textIndexWeight initMongoTextIndexFields ("title") = some 1 ∧
    textIndexWeight initMongoTextIndexFields ("summary") = some 1 ∧
    textIndexWeight initMongoTextIndexFields ("content") = some 1 ∧
    textIndexWeight initMongoTextIndexFields ("metadata.subject") = none ∧
    (initMongoTextIndexFields.all (fun f => f.weight == 1)) = true ∧
    textIndexWeight documentedTextIndexWeights ("title") = some 10 ∧
    textIndexWeight documentedTextIndexWeights ("summary") = some 5 ∧
    textIndexWeight documentedTextIndexWeights ("metadata.subject") = some 3 ∧
    textIndexWeight documentedTextIndexWeights ("content") = some 1 :=
  ⟨rfl, rfl, rfl, rfl, rfl, rfl, rfl, rfl, rfl⟩

/-- Claim C6 (counterexample): the search response interface of
types/api.ts has no `items`, `facets` or `approximate` field, and its
result items carry a full `document`, not a `document_id`. -/
theorem claim_C6_response_fields_counterexample :
    searchResponseFields.contains ("items") = false ∧
    searchResponseFields.contains ("facets") = false ∧
    searchResponseFields.contains ("approximate") = false ∧
    searchResultFields.contains ("document_id") = false := by
  decide

/-- Claim C6 (amended): every search response contains exactly the fields
`results` (items carrying `document`, `score` and optional `highlights`),
`total_count`, `query` and `execution_time`. -/
theorem claim_C6_response_fields :
    searchResponseFields = [("results"), ("total_count"), ("query"), ("execution_time")] ∧
    searchResultFields.contains ("document") = true ∧
    searchResultFields.contains ("score") = true ∧
    searchResultFields.contains ("highlights") = true ∧
    searchResponseFields.length = 4 := by
  decide

/-- Claim C9: `truncateText` returns the text unchanged when it fits in
`maxLength`, and otherwise the first `maxLength` characters followed by
three dots; the output never exceeds `maxLength + 3` characters and can
exceed `maxLength` itself. -/
theorem claim_C9_truncateText (text : List Char) (maxLength : Nat) :
    (text.length ≤ maxLength → truncateText text maxLength = text) ∧
    (maxLength < text.length →
      truncateText text maxLength = text.take maxLength ++ ['.', '.', '.']) ∧
    (truncateText text maxLength).length ≤ maxLength + 3 ∧
    (∃ (t : List Char) (m : Nat), m < (truncateText t m).length) := by
  refine ⟨?_, ?_, ?_, ⟨("abcd").data, 2, by decide⟩⟩
  · intro h
    simp [truncateText, h]
  · intro h
    simp [truncateText, Nat.not_le.mpr h]
  · by_cases h : text.length ≤ maxLength
    · simp only [truncateText, if_pos h]
      omega
    · simp only [truncateText, if_neg h, List.length_append, List.length_take]
      simp

/-- Witness for claim C9 at concrete inputs. -/
theorem claim_C9_truncateText_witness :
    truncateText ("hello").data 2 = ("hello").data.take 2 ++ ['.', '.', '.'] ∧
    truncateText ("hi").data 10 = ("hi").data :=
  ⟨(claim_C9_truncateText (("hello").data) 2).2.1 (by decide),
   (claim_C9_truncateText (("hi").data) 10).1 (by decide)⟩

/-- Claim C10: every document returned by `documentApi.getDocuments` has
its `id` populated from the backend record's `_id`, for any `skip`,
`limit` and `category` arguments. -/
theorem claim_C10_getDocuments_id (skip limit : Nat) (category : Option String)
    (responseData : List RawDoc) :
    (getDocuments skip limit category responseData).map (fun d => d.id) =
      responseData.map (fun r => r._id) ∧
    (getDocuments skip limit category responseData).length = responseData.length := by
  constructor
  · simp [getDocuments, mapRawDoc]
  · simp [getDocuments]

/-- Claim C3: for a static corpus and a fixed query, requesting pages
1..N (page k at offset `(k-1)*limit`, as `handleSearch` builds the
request) and concatenating the returned items yields exactly the full
ranked result list — no duplicates, no gaps — as soon as `N*limit`
covers the corpus; requesting everything in one call returns the same
list. -/
theorem claim_C3_pagination_stable (ranked : List SearchResult) (searchQuery : String)
    (category : Option String) (N : Nat)
    (h : ranked.length ≤ N * searchPageLimit) :
    ((List.range N).map (fun k => pageResults ranked searchQuery category (k + 1))).flatten =
      ranked ∧
    serverSearchSlice ranked 0 ranked.length = ranked := by
  constructor
  · have hpage : ∀ k, pageResults ranked searchQuery category (k + 1) =
        (ranked.drop (k * searchPageLimit)).take searchPageLimit := by
      intro k
      simp [pageResults, buildSearchRequest, serverSearchSlice, searchPageLimit]
    calc ((List.range N).map (fun k => pageResults ranked searchQuery category (k + 1))).flatten
        = ((List.range N).map (fun k => (ranked.drop (k * searchPageLimit)).take searchPageLimit)).flatten := by
          simp only [hpage]
      _ = ranked.take (N * searchPageLimit) := chunks_flatten searchPageLimit ranked N
      _ = ranked := List.take_of_length_le h
  · simp [serverSearchSlice]

/-- Witness for claim C3: three ranked results, one page of ten. -/
theorem claim_C3_pagination_stable_witness :
    ((List.range 1).map (fun k => pageResults demoRanked ("thuế") none (k + 1))).flatten =
      demoRanked ∧
    serverSearchSlice demoRanked 0 demoRanked.length = demoRanked :=
  claim_C3_pagination_stable demoRanked ("thuế") none 1 (by simp [demoRanked, searchPageLimit])

/-- Claim C7: `check_and_register` computes a normalized-content
fingerprint; on a fresh fingerprint it returns `New` (registering the
fingerprint), and a second ingestion of content with the same normalized
form returns `ExactDuplicate` carrying the first document's id. -/
theorem claim_C7_duplicate_detection (idx : FingerprintIndex) (c1 c2 id1 id2 : String)
    (hnew : lookupFingerprint idx (normalizeContent c1) = none)
    (hsame : normalizeContent c2 = normalizeContent c1) :
    (check_and_register idx c1 id1).1 = DuplicateOutcome.New ∧
    (check_and_register (check_and_register idx c1 id1).2 c2 id2).1 =
      DuplicateOutcome.ExactDuplicate id1 := by
  have hfind : idx.entries.find? (fun e => e.1 == normalizeContent c1) = none := by
    have := hnew
    unfold lookupFingerprint at this
    exact Option.map_eq_none'.mp this
  constructor
  · simp [check_and_register, hnew]
  · simp only [check_and_register, hnew]
    have hfind2 : lookupFingerprint ⟨idx.entries ++ [(normalizeContent c1, id1)]⟩
        (normalizeContent c2) = some id1 := by
      unfold lookupFingerprint
      rw [hsame]
      rw [find?_append_single _ _ _ hfind]
      simp
    simp [hfind2]

/-- Witness for claim C7: ingesting two case/whitespace variants of the
same content into an empty fingerprint index. -/
theorem claim_C7_duplicate_detection_witness :
    (check_and_register ⟨[]⟩ ("Hello  World") ("d1")).1 = DuplicateOutcome.New ∧
    (check_and_register (check_and_register ⟨[]⟩ ("Hello  World") ("d1")).2
        (" hello WORLD") ("d2")).1 = DuplicateOutcome.ExactDuplicate ("d1") :=
  claim_C7_duplicate_detection ⟨[]⟩ ("Hello  World") (" hello WORLD") ("d1") ("d2")
    (by rfl) (by rfl)

/-- Claim C8 (counterexample): a file named `pdf` — which contains no dot,
so under the claim's reading ("the part after the last dot of the name")
it has no admissible extension — is nevertheless accepted by
`validateFile`, because the code takes `'.' + name.split('.').pop()`,
which for a dotless name is the whole name. -/
theorem claim_C8_validateFile_counterexample :
    validateFile { name := ("pdf"), size := 100 } = { valid := true, error := none } ∧
    (("pdf").data.contains '.') = false ∧
    claimValidB { name := ("pdf"), size := 100 } = false :=
  ⟨rfl, rfl, rfl⟩

/-- Claim C8 (amended): `validateFile` rejects with the size message
exactly when the size exceeds 10·1024·1024 bytes (checked first), and
otherwise rejects with the type message exactly when `'.' +` the
lowercased last dot-separated piece of the name (the whole name, when it
has no dot) is not among `.pdf`, `.doc`, `.docx`, `.txt`; every other
file is accepted with no error message. -/
theorem claim_C8_validateFile_amended (f : FileInfo) :
    ((validateFile f).valid = true ↔
      f.size ≤ maxSizeBytes ∧ allowedTypes.contains (fileExt f.name) = true) ∧
    (f.size > maxSizeBytes →
      validateFile f = { valid := false, error := some sizeErrorMsg }) ∧
    (f.size ≤ maxSizeBytes → allowedTypes.contains (fileExt f.name) = false →
      validateFile f = { valid := false, error := some typeErrorMsg }) ∧
    ((validateFile f).valid = true → (validateFile f).error = none) ∧
    ((validateFile f).valid = false → (validateFile f).error.isSome = true) := by
  by_cases hsize : f.size > maxSizeBytes
  · simp [validateFile, hsize]
  · by_cases hmem : fileExt f.name ∈ allowedTypes
    · have hext : allowedTypes.contains (fileExt f.name) = true := by simpa using hmem
      simp [validateFile, hsize, hmem, hext]
      omega
    · have hext : allowedTypes.contains (fileExt f.name) = false := by simpa using hmem
      simp [validateFile, hsize, hmem, hext]

/-- Witness for claim C8: an oversized file and a mistyped file. -/
theorem claim_C8_validateFile_witness :
    validateFile { name := ("a.pdf"), size := 20971520 } =
      { valid := false, error := some sizeErrorMsg } ∧
    validateFile { name := ("a.exe"), size := 100 } =
      { valid := false, error := some typeErrorMsg } :=
  ⟨(claim_C8_validateFile_amended { name := ("a.pdf"), size := 20971520 }).2.1 (by decide),
   (claim_C8_validateFile_amended { name := ("a.exe"), size := 100 }).2.2.1 (by decide)
     (by decide)⟩

/-- Claim C4 (counterexample): `highlightText` does not mark every
case-insensitive occurrence.  In text `aaa` the query `aa` occurs at
indices 0 and 1; the output `<mark>aa</mark>a` wraps only the first:
the character at text position 2 belongs to the occurrence at index 1
yet lies outside every mark (its flag is `false`), because the global
regex scan is non-overlapping. -/
theorem claim_C4_highlight_counterexample :
    occursAtCI ("aa").data ("aaa").data 1 = true ∧
    highlightText ("aaa").data ("aa").data = ("<mark>aa</mark>a").data ∧
    highlightFlags ("aa").data ("aaa").data = [(true, 'a'), (true, 'a'), (false, 'a')] ∧
    stripMarks (highlightSegs ("aa").data ("aaa").data) = ("aaa").data :=
  ⟨rfl, rfl, rfl, rfl⟩

/-- Claim C4 (amended): for a whitespace-only (or empty) query the text
is returned unchanged; otherwise the scan marks the occurrences found by
a single left-to-right non-overlapping case-insensitive scan with the
query treated literally: stripping the inserted marks restores the
original text exactly, every marked region is a case-insensitive match
of the query of the query's length, and a text without any occurrence is
returned unchanged. -/
theorem claim_C4_highlight_amended (text query : List Char) :
    (query.all Char.isWhitespace = true → highlightText text query = text) ∧
    (query.all Char.isWhitespace = false →
      stripMarks (highlightSegs query text) = text ∧
      (∀ m, Seg.marked m ∈ highlightSegs query text →
        ciStarts query m = true ∧ m.length = query.length) ∧
      ((∀ i, occursAtCI query text i = false) → highlightText text query = text)) := by
  constructor
  · intro h
    simp [highlightText, h]
  · intro h
    have hq : query ≠ [] := by
      intro hnil
      subst hnil
      simp at h
    refine ⟨?_, ?_, ?_⟩
    · have := stripMarks_hlAux query hq text 0
      simpa [highlightSegs] using this
    · intro m hm
      exact hlAux_marked query text 0 m hm
    · intro hno
      simp only [highlightText, h, Bool.false_eq_true, if_false]
      rw [highlightSegs, hlAux_no_occ query text hno]
      exact flatten_map_plain text

/-- Witness for claim C4 at concrete inputs: a whitespace query, a
matching query, and a query with no occurrence. -/
theorem claim_C4_highlight_witness :
    highlightText ("abc").data ("  ").data = ("abc").data ∧
    stripMarks (highlightSegs ("LO").data ("Hello world").data) = ("Hello world").data ∧
    highlightText ("abc").data ("zzzz").data = ("abc").data := by
  refine ⟨(claim_C4_highlight_amended (("abc").data) (("  ").data)).1 (by decide),
    ((claim_C4_highlight_amended (("Hello world").data) (("LO").data)).2 (by decide)).1,
    (((claim_C4_highlight_amended (("abc").data) (("zzzz").data)).2 (by decide)).2).2 ?_⟩
  intro i
  have h4 : (("zzzz").data).length = 4 := rfl
  have h3 : (("abc").data).length = 3 := rfl
  simp only [occursAtCI, h4, h3]
  have hd : decide (i + 4 ≤ 3) = false := decide_eq_false (by omega)
  simp [hd]

/-- Claim C5: the parser accepts exactly the six declared search modes
and interprets the raw string per the selected mode's grammar (boolean
precedence NOT > AND > OR with parentheses, `term1 NEAR/n term2` with
positive `n`, quoted phrases, single-token wildcards, `term~k` with
default edit-distance 2 clamped to [0,2], OR-combined free text); every
blank input and every malformed input yields a typed `ParseError`, and a
successful parse never yields an empty AST (every returned AST has at
least one leaf). -/
theorem claim_C5_parse_modes :
    (∀ (raw : String) (mode : SearchMode),
      raw.data.all Char.isWhitespace = true → isErr (parse raw mode) = true) ∧
    (∀ (raw : String) (mode : SearchMode) (ast : QueryAST),
      parse raw mode = Except.ok ast → 1 ≤ leafCount ast) ∧
    (∀ mode : SearchMode,
      mode ∈ [SearchMode.full_text, SearchMode.boolean, SearchMode.phrase,
        SearchMode.proximity, SearchMode.wildcard, SearchMode.fuzzy]) ∧
    parse ("a AND b") SearchMode.boolean =
      Except.ok (QueryAST.And (QueryAST.Term ("a")) (QueryAST.Term ("b"))) ∧
    parse ("NOT a OR b AND c") SearchMode.boolean =
      Except.ok (QueryAST.Or (QueryAST.Not (QueryAST.Term ("a")))
        (QueryAST.And (QueryAST.Term ("b")) (QueryAST.Term ("c")))) ∧
    isErr (parse ("(a AND") SearchMode.boolean) = true ∧
    isErr (parse ("a AND OR b") SearchMode.boolean) = true ∧
    parse ("t1 NEAR/3 t2") SearchMode.proximity =
      Except.ok (QueryAST.Proximity ("t1") ("t2") 3) ∧
    parse ("t1 NEAR/0 t2") SearchMode.proximity =
      Except.error (ParseError.InvalidArgument nearPositiveMsg) ∧
    parse ("\"a b\"") SearchMode.phrase = Except.ok (QueryAST.Phrase [("a"), ("b")]) ∧
    parse ("boi*") SearchMode.wildcard = Except.ok (QueryAST.Wildcard ("boi*")) ∧
    parse ("term~1") SearchMode.fuzzy = Except.ok (QueryAST.Fuzzy ("term") 1) ∧
    parse ("term") SearchMode.fuzzy = Except.ok (QueryAST.Fuzzy ("term") 2) ∧
    parse ("term~9") SearchMode.fuzzy = Except.ok (QueryAST.Fuzzy ("term") 2) ∧
    parse ("a b") SearchMode.full_text =
      Except.ok (QueryAST.Or (QueryAST.Term ("a")) (QueryAST.Term ("b"))) := by
  refine ⟨?_, fun _ _ ast _ => leafCount_pos ast, ?_,
    rfl, rfl, rfl, rfl, rfl, rfl, rfl, rfl, rfl, rfl, rfl, rfl⟩
  · intro raw mode h
    have hw : wordsOf raw = [] := wordsAux_ws raw.data h
    have ht : tokenize raw = [] := tokenizeAux_ws raw.data h
    cases mode with
    | full_text => simp only [parse]; rw [hw]; rfl
    | boolean => simp only [parse]; rw [ht]; rfl
    | phrase => simp only [parse]; rw [hw]; rfl
    | proximity => simp only [parse]; rw [hw]; rfl
    | wildcard => simp only [parse]; rw [hw]; rfl
    | fuzzy => simp only [parse]; rw [hw]; rfl
  · intro mode
    cases mode <;> simp

/-- Witness for claim C5: a blank query errors in full-text mode, and a
parsed term has a leaf. -/
theorem claim_C5_parse_modes_witness :
    isErr (parse ("   ") SearchMode.full_text) = true ∧
    1 ≤ leafCount (QueryAST.Term ("a")) :=
  ⟨claim_C5_parse_modes.1 ("   ") SearchMode.full_text (by decide),
   claim_C5_parse_modes.2.1 ("a") SearchMode.full_text (QueryAST.Term ("a")) rfl⟩
